import Mathlib

/-!
Shallow embedding of SU2_CFD/src/numerics_fem_nonlinear_elasticity.cpp
(classes CFEM_NonlinearElasticity and CFEM_NeoHookean_Comp, SU2 v4.0).

Modelling conventions:
* C doubles are modelled as real numbers (ℝ).
* The C library function log is modelled by an explicit parameter
  log : ℝ → ℝ, so that theorems quantify over every model of the
  library function; where a claim needs the real logarithm the
  parameter is instantiated with Real.log.
* The heap rows of the 3x3 buffers F_Mat and b_Mat are modelled as
  total functions ℕ → ℕ → ℝ: cell (i, j) with i < 3 and j < 3 is the
  allocated buffer, and any other cell stands for the memory an
  out-of-bounds access would touch.  The entry state of a buffer at
  the start of a call (uninitialized or left over from earlier calls)
  is an explicit parameter.
* Uninitialized local variables (Mu_p, Lambda_p, Mu_J, Lambda_J,
  Avg_kappa) are modelled as explicit parameters holding whatever
  indeterminate value the local has when the guarded update is
  skipped.
-/

noncomputable section

/-- Lines 151-156: the initialization loop writes 0.0 to the leading
nDim x nDim block of a buffer and leaves every other cell unchanged. -/
def zeroBlock (nDim : ℕ) (M : ℕ → ℕ → ℝ) : ℕ → ℕ → ℝ :=
  fun i j => if i < nDim ∧ j < nDim then 0 else M i j

/-- One assignment `M[r][c] = v` on a flat buffer. -/
def writeCell (r c : ℕ) (v : ℝ) (M : ℕ → ℕ → ℝ) : ℕ → ℕ → ℝ :=
  fun i j => if i = r ∧ j = c then v else M i j

/-- Lines 170-179, body of the iNode loop: accumulate
`F_Mat[i][j] += currentCoord[iNode][i] * GradNi_Mat[iNode][j]` over the
leading nDim x nDim block, then, when nDim = 2, perform the literal
assignment `F_Mat[3][3] = 1.0` (note the indices: cell (3,3), not
(2,2)). -/
def F_nodeStep (nDim : ℕ) (coord grad : ℕ → ℕ → ℝ) (M : ℕ → ℕ → ℝ) (node : ℕ) :
    ℕ → ℕ → ℝ :=
  let M1 : ℕ → ℕ → ℝ :=
    fun i j => if i < nDim ∧ j < nDim then M i j + coord node i * grad node j else M i j
  if nDim = 2 then writeCell 3 3 1 M1 else M1

/-- Lines 151-181: the F_Mat buffer produced at one Gauss point, from
the current coordinates, the shape-function gradients at this Gauss
point, and the buffer state `Fp` left by the previous Gauss point (or
by whatever preceded the call). -/
def F_Mat_gauss (nDim nNode : ℕ) (coord grad : ℕ → ℕ → ℝ) (Fp : ℕ → ℕ → ℝ) :
    ℕ → ℕ → ℝ :=
  (List.range nNode).foldl (F_nodeStep nDim coord grad) (zeroBlock nDim Fp)

/-- Lines 185-190: the full 3x3 cofactor expansion computing J_F from
the F_Mat buffer. -/
def det3 (F : ℕ → ℕ → ℝ) : ℝ :=
  F 0 0 * F 1 1 * F 2 2 +
  F 0 1 * F 1 2 * F 2 0 +
  F 0 2 * F 1 0 * F 2 1 -
  F 0 2 * F 1 1 * F 2 0 -
  F 1 2 * F 2 1 * F 0 0 -
  F 2 2 * F 0 1 * F 1 0

/-- Lines 151-156 and 194-200: the b_Mat buffer produced at one Gauss
point: its leading nDim x nDim block was zeroed together with F_Mat,
and then `b_Mat[i][j] += F_Mat[i][k] * F_Mat[j][k]` accumulates over
the full 3x3 range of i, j, k on top of whatever the buffer held. -/
def b_Mat_gauss (nDim : ℕ) (F bp : ℕ → ℕ → ℝ) : ℕ → ℕ → ℝ :=
  fun i j =>
    if i < 3 ∧ j < 3 then
      zeroBlock nDim bp i j + ∑ k ∈ Finset.range 3, F i k * F j k
    else bp i j

/-- Lines 395-416, CFEM_NeoHookean_Comp::Compute_Constitutive_Matrix.
The locals Mu_p and Lambda_p are updated only under the guard
`J_F != 0.0`; when the guard fails they keep the indeterminate values
`mu_p0`, `lam_p0`.  The 6x6 D_Mat buffer is then filled entry by entry
exactly as in lines 407-412 (cells outside the 6x6 fill are not part
of the buffer and are returned as 0). -/
def Compute_Constitutive_Matrix (log : ℝ → ℝ) (Mu Lambda J_F mu_p0 lam_p0 : ℝ) :
    ℕ → ℕ → ℝ :=
  let Mu_p : ℝ := if J_F ≠ 0 then (Mu - Lambda * log J_F) / J_F else mu_p0
  let Lambda_p : ℝ := if J_F ≠ 0 then Lambda / J_F else lam_p0
  fun i j =>
    if i = 0 then
      if j = 0 then Lambda_p + 2 * Mu_p else
      if j = 1 then Lambda_p else
      if j = 2 then Lambda_p else 0
    else if i = 1 then
      if j = 0 then Lambda_p else
      if j = 1 then Lambda_p + 2 * Mu_p else
      if j = 2 then Lambda_p else 0
    else if i = 2 then
      if j = 0 then Lambda_p else
      if j = 1 then Lambda_p else
      if j = 2 then Lambda_p + 2 * Mu_p else 0
    else if i = 3 then
      if j = 3 then Mu_p else 0
    else if i = 4 then
      if j = 4 then Mu_p else 0
    else if i = 5 then
      if j = 5 then Mu_p else 0
    else 0

/-- Lines 116-117: the Voigt dimension, 3 for two space dimensions and
6 otherwise (only nDim = 2 and nDim = 3 are configurable). -/
def bDimOf (nDim : ℕ) : ℕ := if nDim = 2 then 3 else 6

/-- Lines 205-221 and 250-266: the strain-displacement operator built
from the shape-function gradients of one node, written `gr` in the fixed Voigt
layout.  The buffers Ba_Mat and Bb_Mat are zero-initialized once
(lines 119-124) and every node writes exactly the cells below, so the
buffer content for a node is this function. -/
def B_Mat (nDim : ℕ) (gr : ℕ → ℝ) : ℕ → ℕ → ℝ :=
  fun i j =>
    if nDim = 2 then
      if i = 0 ∧ j = 0 then gr 0 else
      if i = 1 ∧ j = 1 then gr 1 else
      if i = 2 ∧ j = 0 then gr 1 else
      if i = 2 ∧ j = 1 then gr 0 else 0
    else
      if i = 0 ∧ j = 0 then gr 0 else
      if i = 1 ∧ j = 1 then gr 1 else
      if i = 2 ∧ j = 2 then gr 2 else
      if i = 3 ∧ j = 0 then gr 1 else
      if i = 3 ∧ j = 1 then gr 0 else
      if i = 4 ∧ j = 0 then gr 2 else
      if i = 4 ∧ j = 2 then gr 0 else
      if i = 5 ∧ j = 1 then gr 2 else
      if i = 5 ∧ j = 2 then gr 1 else 0

/-- Lines 230-237 and 269-276: entry (i, j) of the material block
KAux_ab for the node pair (iN, jN), namely
`Weight * (Ba^T . D)[i][k] * Bb[k][j] * Jac_X` summed over k < bDim,
with `(Ba^T . D)[i][k] = Ba[l][i] * D[l][k]` summed over l < bDim. -/
def kcContrib (nDim bDim : ℕ) (w jx : ℝ) (grads D : ℕ → ℕ → ℝ) (iN jN i j : ℕ) : ℝ :=
  ∑ k ∈ Finset.range bDim,
    w * (∑ l ∈ Finset.range bDim, B_Mat nDim (grads iN) l i * D l k) *
      B_Mat nDim (grads jN) k j * jx

/-- Lines 241-246 and 280-283: the geometric scalar Ks_Aux_ab for the
node pair (iN, jN), namely
`Weight * (GradNi[iN][j] * S[j][i]) * GradNi[jN][i] * Jac_X` summed
over i, j < nDim, where S is the Stress_Tensor buffer. -/
def ksContrib (nDim : ℕ) (w jx : ℝ) (grads S : ℕ → ℕ → ℝ) (iN jN : ℕ) : ℝ :=
  ∑ i ∈ Finset.range nDim,
    w * (∑ j ∈ Finset.range nDim, grads iN j * S j i) * grads jN i * jx

/-- Modelled from the spec: the stiffness accumulators of the element.  The
CElement class is not part of this source file; per section 6 of the
spec it stores, per node pair (a, b), a material stiffness block
(`AddMaterialStiffnessBlock` / `AddTransposedMaterialStiffnessBlock`
accumulate into it) and a geometric stiffness scalar
(`AddGeometricStiffnessScalar` accumulates into it). -/
structure ElemStore where
  Kc : ℕ → ℕ → ℕ → ℕ → ℝ
  Ks : ℕ → ℕ → ℝ

/-- Modelled from the spec: `clearElement` (line 136) resets the
accumulators of the element. -/
def emptyStore : ElemStore := ⟨fun _ _ _ _ => 0, fun _ _ => 0⟩

/-- Modelled from the spec: `element->Add_Kab(K, a, b)` adds the block
K into the material accumulator for the pair (a, b). -/
def add_Kab (K : ℕ → ℕ → ℝ) (a b : ℕ) (e : ElemStore) : ElemStore :=
  { e with
    Kc := fun a2 b2 i j =>
      if a2 = a ∧ b2 = b then e.Kc a2 b2 i j + K i j else e.Kc a2 b2 i j }

/-- Modelled from the spec: `element->Add_Kab_T(K, b, a)` adds the
transpose of the block K into the material accumulator for (b, a). -/
def add_Kab_T (K : ℕ → ℕ → ℝ) (a b : ℕ) (e : ElemStore) : ElemStore :=
  { e with
    Kc := fun a2 b2 i j =>
      if a2 = a ∧ b2 = b then e.Kc a2 b2 i j + K j i else e.Kc a2 b2 i j }

/-- Modelled from the spec: `element->Add_Ks_ab(s, a, b)` adds the
geometric scalar s into the accumulator for the pair (a, b). -/
def add_Ks_ab (s : ℝ) (a b : ℕ) (e : ElemStore) : ElemStore :=
  { e with
    Ks := fun a2 b2 => if a2 = a ∧ b2 = b then e.Ks a2 b2 + s else e.Ks a2 b2 }

/-- Lines 249-293, body of the jNode loop for the pair (iN, jN): build
Bb, form the material block and the geometric scalar, then perform the
four accumulation calls exactly as written in lines 285-291 — note
that inside `if (iNode != jNode)` the second `Add_Ks_ab` call again
targets the pair (iNode, jNode). -/
def pairStep (nDim bDim : ℕ) (w jx : ℝ) (grads D S : ℕ → ℕ → ℝ) (iN jN : ℕ)
    (e : ElemStore) : ElemStore :=
  let K : ℕ → ℕ → ℝ := fun i j => kcContrib nDim bDim w jx grads D iN jN i j
  let s : ℝ := ksContrib nDim w jx grads S iN jN
  let e1 := add_Ks_ab s iN jN (add_Kab K iN jN e)
  if iN ≠ jN then add_Ks_ab s iN jN (add_Kab_T K jN iN e1) else e1

/-- The mutable deformation buffers of the object: F_Mat and b_Mat. -/
structure TMState where
  F : ℕ → ℕ → ℝ
  b : ℕ → ℕ → ℝ

/-- The inputs of Compute_Tangent_Matrix: element data (node count,
Gauss point count, weights, reference Jacobians, reference
shape-function gradients per node/Gauss point/dimension, current
coordinates), the material constants, the entry states of the three
3x3 buffers, and the indeterminate values of the uninitialized locals
Mu_p and Lambda_p of Compute_Constitutive_Matrix. -/
structure TMIn where
  nDim : ℕ
  nNode : ℕ
  nGauss : ℕ
  W : ℕ → ℝ
  JX : ℕ → ℝ
  Jx : ℕ → ℝ
  gradX : ℕ → ℕ → ℕ → ℝ
  coord : ℕ → ℕ → ℝ
  F0 : ℕ → ℕ → ℝ
  b0 : ℕ → ℕ → ℝ
  S0 : ℕ → ℕ → ℝ
  Mu : ℝ
  Lambda : ℝ
  mu_p0 : ℝ
  lam_p0 : ℝ

/-- Lines 149-200: the deformation-state part of one Gauss-point
iteration: recompute F_Mat from the current coordinates and this Gauss
gradients of this Gauss point on top of the previous buffer state, then recompute
b_Mat from it. -/
def gaussStateStep (I : TMIn) (s : TMState) (g : ℕ) : TMState :=
  let F := F_Mat_gauss I.nDim I.nNode I.coord (fun n d => I.gradX n g d) s.F
  ⟨F, b_Mat_gauss I.nDim F s.b⟩

/-- Lines 203-295: the assembly part of one Gauss-point iteration.
For each node iN the constitutive matrix is recomputed from the
current J_F (line 226); the Stress_Tensor buffer is only read — no
call recomputes it — so every geometric scalar uses the entry stress
I.S0. -/
def gaussAssemble (log : ℝ → ℝ) (I : TMIn) (s : TMState) (g : ℕ) (e : ElemStore) :
    ElemStore :=
  (List.range I.nNode).foldl
    (fun e2 iN =>
      let D := Compute_Constitutive_Matrix log I.Mu I.Lambda (det3 s.F) I.mu_p0 I.lam_p0
      (List.range' iN (I.nNode - iN)).foldl
        (fun e3 jN =>
          pairStep I.nDim (bDimOf I.nDim) (I.W g) (I.JX g) (fun n d => I.gradX n g d)
            D I.S0 iN jN e3)
        e2)
    e

/-- One full Gauss-point iteration (lines 143-297). -/
def tangentGaussStep (log : ℝ → ℝ) (I : TMIn) (p : TMState × ElemStore) (g : ℕ) :
    TMState × ElemStore :=
  let s := gaussStateStep I p.1 g
  (s, gaussAssemble log I s g p.2)

/-- Lines 100-299, CFEM_NonlinearElasticity::Compute_Tangent_Matrix:
clear the element accumulators, then iterate over the Gauss points.
Returns the final buffer states and the accumulated element store. -/
def Compute_Tangent_Matrix (log : ℝ → ℝ) (I : TMIn) : TMState × ElemStore :=
  (List.range I.nGauss).foldl (tangentGaussStep log I) (⟨I.F0, I.b0⟩, emptyStore)

/-- The buffer states after the first g Gauss-point iterations. -/
def stateAt (I : TMIn) (g : ℕ) : TMState :=
  (List.range g).foldl (gaussStateStep I) ⟨I.F0, I.b0⟩

/-- The F_Mat buffer as computed during Gauss point g. -/
def FAt (I : TMIn) (g : ℕ) : ℕ → ℕ → ℝ := (stateAt I (g + 1)).F

/-- The b_Mat buffer as computed during Gauss point g. -/
def bAt (I : TMIn) (g : ℕ) : ℕ → ℕ → ℝ := (stateAt I (g + 1)).b

/-- The value J_F holds during Gauss point g (lines 185-190). -/
def JAt (I : TMIn) (g : ℕ) : ℝ := det3 (FAt I g)

/-- The total geometric-scalar contribution that Gauss point g leaves
in the accumulator of the pair (a, b): the pair loop visits (a, b)
once when a ≤ b, and the `Add_Ks_ab` call in the symmetric branch
doubles the contribution when a < b; the pair (a, b) with b < a is
never targeted. -/
def gaussKsTerm (I : TMIn) (g a b : ℕ) : ℝ :=
  if a < I.nNode ∧ b < I.nNode ∧ a ≤ b then
    (if a = b then 1 else 2) *
      ksContrib I.nDim (I.W g) (I.JX g) (fun n d => I.gradX n g d) I.S0 a b
  else 0

/-- The total material-block contribution that Gauss point g leaves in
entry (i, j) of the accumulator of the pair (a, b): the direct
`Add_Kab` for a ≤ b plus the transposed `Add_Kab_T` for b < a, with
the constitutive matrix recomputed from J_F at this Gauss point. -/
def gaussKcTerm (log : ℝ → ℝ) (I : TMIn) (g a b i j : ℕ) : ℝ :=
  (if a < I.nNode ∧ b < I.nNode ∧ a ≤ b then
    kcContrib I.nDim (bDimOf I.nDim) (I.W g) (I.JX g) (fun n d => I.gradX n g d)
      (Compute_Constitutive_Matrix log I.Mu I.Lambda (JAt I g) I.mu_p0 I.lam_p0)
      a b i j
  else 0) +
  (if a < I.nNode ∧ b < I.nNode ∧ b < a then
    kcContrib I.nDim (bDimOf I.nDim) (I.W g) (I.JX g) (fun n d => I.gradX n g d)
      (Compute_Constitutive_Matrix log I.Mu I.Lambda (JAt I g) I.mu_p0 I.lam_p0)
      b a j i
  else 0)

/-- Modelled from the spec: the full stiffness block of a node pair is
the material block plus the geometric scalar broadcast onto the
diagonal of the nDim x nDim block ("a scaled identity-like
contribution", section 4.1 of the spec). -/
def totalK (e : ElemStore) (a b i j : ℕ) : ℝ :=
  e.Kc a b i j + (if i = j then e.Ks a b else 0)

/-- Lines 418-439, CFEM_NeoHookean_Comp::Compute_Stress_Tensor.  The
locals Mu_J and Lambda_J are updated only under the guard
`J_F != 0.0`; when the guard fails they keep the indeterminate values
`mu_J0`, `lam_J0`.  The assignment
`Stress_Tensor[i][j] = Mu_J*(b_Mat[i][j] - dij) + Lambda_J*log(J_F)*dij`
is executed for every i, j < 3 with no guard on the log(J_F) factor. -/
def Compute_Stress_Tensor (log : ℝ → ℝ) (Mu Lambda J_F : ℝ) (b : ℕ → ℕ → ℝ)
    (mu_J0 lam_J0 : ℝ) : ℕ → ℕ → ℝ :=
  let Mu_J : ℝ := if J_F ≠ 0 then Mu / J_F else mu_J0
  let Lambda_J : ℝ := if J_F ≠ 0 then Lambda / J_F else lam_J0
  fun i j =>
    if i < 3 ∧ j < 3 then
      Mu_J * (b i j - (if i = j then 1 else 0)) +
        Lambda_J * log J_F * (if i = j then 1 else 0)
    else 0

/-- The inputs of Compute_MeanDilatation_Term: the reduced ("pressure")
quadrature data (counts, weights, reference and current Jacobians,
current-configuration shape-function gradients), the bulk modulus
Kappa, the entry state G0 of the GradNi_Mat buffer, and the
indeterminate value kappa0 of the uninitialized local Avg_kappa. -/
structure MDIn where
  nDim : ℕ
  nNode : ℕ
  nGaussP : ℕ
  WP : ℕ → ℝ
  JXP : ℕ → ℝ
  JxP : ℕ → ℝ
  gradP : ℕ → ℕ → ℕ → ℝ
  G0 : ℕ → ℕ → ℝ
  kappa0 : ℝ
  Kappa : ℝ

/-- Lines 347: the accumulated reference volume, Weight * Jac_X summed
over the reduced Gauss points. -/
def md_Vref (I : MDIn) : ℝ := ∑ g ∈ Finset.range I.nGaussP, I.WP g * I.JXP g

/-- Lines 348: the accumulated current volume, Weight * Jac_x summed
over the reduced Gauss points. -/
def md_Vcur (I : MDIn) : ℝ := ∑ g ∈ Finset.range I.nGaussP, I.WP g * I.JxP g

/-- Lines 321-345: the GradNi_Mat buffer after the accumulation loop:
the nNode x nDim block is zeroed and then receives
`Weight * GradNi_x_P * Jac_x` summed over the reduced Gauss points;
every other cell keeps its entry value. -/
def md_Gacc (I : MDIn) : ℕ → ℕ → ℝ :=
  fun n d =>
    if n < I.nNode ∧ d < I.nDim then
      ∑ g ∈ Finset.range I.nGaussP, I.WP g * I.gradP n g d * I.JxP g
    else I.G0 n d

/-- Lines 352-360: the GradNi_Mat buffer after the conditional
normalization: divided by the current volume only when both volumes
are nonzero. -/
def md_Gfin (I : MDIn) : ℕ → ℕ → ℝ :=
  fun n d =>
    if n < I.nNode ∧ d < I.nDim ∧ md_Vcur I ≠ 0 ∧ md_Vref I ≠ 0 then
      md_Gacc I n d / md_Vcur I
    else md_Gacc I n d

/-- Lines 352-364: the local Avg_kappa, assigned
`Kappa * Vol_current / Vol_reference` only when both volumes are
nonzero; otherwise it keeps its indeterminate value kappa0. -/
def md_kappa (I : MDIn) : ℝ :=
  if md_Vcur I ≠ 0 ∧ md_Vref I ≠ 0 then I.Kappa * md_Vcur I / md_Vref I
  else I.kappa0

/-- Lines 301-383, CFEM_NonlinearElasticity::Compute_MeanDilatation_Term.
For every node pair (a, b) (both loops over all nodes) the block
`KAux_P_ab[i][j] = Avg_kappa * Vol_current * GradNi_Mat[a][i] * GradNi_Mat[b][j]`
is stored by `Set_Kk_ab` — modelled from the spec as an overwrite of
the pressure block Kk0 of the element for that pair. -/
def Compute_MeanDilatation_Term (I : MDIn) (Kk0 : ℕ → ℕ → ℕ → ℕ → ℝ) :
    ℕ → ℕ → ℕ → ℕ → ℝ :=
  fun a b i j =>
    if a < I.nNode ∧ b < I.nNode ∧ i < I.nDim ∧ j < I.nDim then
      md_kappa I * md_Vcur I * md_Gfin I a i * md_Gfin I b j
    else Kk0 a b i j

/-- The set of index pairs written on the F_Mat buffer during one
Gauss-point iteration of Compute_Tangent_Matrix, read off the loops:
the zeroing loop of lines 151-156 writes (i, j) for i, j < nDim, and
each of the nNode iterations of the node loop writes the accumulation
cells (i, j) for i, j < nDim (line 172) and, when nDim = 2, the cell
(3, 3) of the assignment `F_Mat[3][3] = 1.0` (line 178). -/
def F_Mat_write_index (nDim nNode : ℕ) (p : ℕ × ℕ) : Prop :=
  (p.1 < nDim ∧ p.2 < nDim) ∨
  (0 < nNode ∧ ((p.1 < nDim ∧ p.2 < nDim) ∨ (nDim = 2 ∧ p = (3, 3))))

instance (nDim nNode : ℕ) (p : ℕ × ℕ) : Decidable (F_Mat_write_index nDim nNode p) := by
  unfold F_Mat_write_index; infer_instance

/-- A concrete 3D element in identity deformation (three nodes whose
coordinates and reference gradients are the unit vectors, one Gauss
point, unit weight and Jacobian) whose Stress_Tensor buffer enters
Compute_Tangent_Matrix holding the identity matrix. -/
def tmIdStress : TMIn where
  nDim := 3
  nNode := 3
  nGauss := 1
  W := fun _ => 1
  JX := fun _ => 1
  Jx := fun _ => 1
  gradX := fun n _ d => if n = d then 1 else 0
  coord := fun n d => if n = d then 1 else 0
  F0 := fun _ _ => 0
  b0 := fun _ _ => 0
  S0 := fun i j => if i = j then 1 else 0
  Mu := 1
  Lambda := 1
  mu_p0 := 0
  lam_p0 := 0

/-- A non-degenerate 3D element: the eight nodes of the unit cube
(node n sits at the coordinates given by the binary digits of n), with
the gradients of the trilinear shape functions evaluated at the cube
center as reference gradients, one Gauss point with unit weight and
Jacobian, current coordinates equal to the reference ones (so the
computed deformation gradient is the identity and J_F = 1), an
identity matrix left in the Stress_Tensor buffer on entry, and zeroed
F_Mat and b_Mat buffers. -/
def tmCube : TMIn where
  nDim := 3
  nNode := 8
  nGauss := 1
  W := fun _ => 1
  JX := fun _ => 1
  Jx := fun _ => 1
  gradX := fun n _ d => (if (n / 2 ^ d) % 2 = 1 then (1 : ℝ) else -1) / 4
  coord := fun n d => if (n / 2 ^ d) % 2 = 1 then (1 : ℝ) else 0
  F0 := fun _ _ => 0
  b0 := fun _ _ => 0
  S0 := fun i j => if i = j then 1 else 0
  Mu := 1
  Lambda := 1
  mu_p0 := 0
  lam_p0 := 0

/-- A concrete 2D element with two Gauss points, all gradients,
coordinates and quadrature data zero, whose F_Mat buffer enters the
call with the single nonzero entry F_Mat[2][0] = 1. -/
def tmStale : TMIn where
  nDim := 2
  nNode := 1
  nGauss := 2
  W := fun _ => 0
  JX := fun _ => 0
  Jx := fun _ => 0
  gradX := fun _ _ _ => 0
  coord := fun _ _ => 0
  F0 := fun i j => if i = 2 ∧ j = 0 then 1 else 0
  b0 := fun _ _ => 0
  S0 := fun _ _ => 0
  Mu := 1
  Lambda := 1
  mu_p0 := 0
  lam_p0 := 0

/-- A concrete 2D element in identity deformation: two nodes with
coordinates and reference gradients equal to the two unit vectors (so
the in-plane sum x[n][i] * gradN[n][j] is the 2x2 identity), one Gauss
point, and a zeroed F_Mat buffer entering the call. -/
def tmId2D : TMIn where
  nDim := 2
  nNode := 2
  nGauss := 1
  W := fun _ => 1
  JX := fun _ => 1
  Jx := fun _ => 1
  gradX := fun n _ d => if n = d then 1 else 0
  coord := fun n d => if n = d then 1 else 0
  F0 := fun _ _ => 0
  b0 := fun _ _ => 0
  S0 := fun _ _ => 0
  Mu := 1
  Lambda := 1
  mu_p0 := 0
  lam_p0 := 0

/-- A concrete 3D element used to instantiate the freshness theorem:
two Gauss points and simple nonzero data. -/
def tmFresh3D : TMIn where
  nDim := 3
  nNode := 2
  nGauss := 2
  W := fun _ => 1
  JX := fun _ => 1
  Jx := fun _ => 1
  gradX := fun n g d => (n : ℝ) + g + d
  coord := fun n d => (n : ℝ) * d
  F0 := fun _ _ => 5
  b0 := fun _ _ => 7
  S0 := fun _ _ => 0
  Mu := 1
  Lambda := 1
  mu_p0 := 0
  lam_p0 := 0

/-- A concrete mean-dilatation input with unit quadrature data: one
node, one reduced Gauss point, unit weight, Jacobians and gradient,
bulk modulus 2, zero entry gradient buffer. -/
def mdUnit : MDIn where
  nDim := 2
  nNode := 1
  nGaussP := 1
  WP := fun _ => 1
  JXP := fun _ => 1
  JxP := fun _ => 1
  gradP := fun _ _ _ => 1
  G0 := fun _ _ => 0
  kappa0 := 0
  Kappa := 2

/-- A concrete degenerate mean-dilatation input: the quadrature weight
is zero, so both accumulated volumes are zero; the GradNi_Mat buffer
enters the call holding 7 everywhere and the local Avg_kappa holds the
indeterminate value 9. -/
def mdDegenerate : MDIn where
  nDim := 2
  nNode := 1
  nGaussP := 1
  WP := fun _ => 0
  JXP := fun _ => 1
  JxP := fun _ => 1
  gradP := fun _ _ _ => 1
  G0 := fun _ _ => 7
  kappa0 := 9
  Kappa := 2

/-- A concrete 3D element in identity deformation with no entry
stress: three nodes whose coordinates and reference gradients are the
unit vectors, one Gauss point, unit weight and Jacobian. -/
def tmId3D : TMIn where
  nDim := 3
  nNode := 3
  nGauss := 1
  W := fun _ => 1
  JX := fun _ => 1
  Jx := fun _ => 1
  gradX := fun n _ d => if n = d then 1 else 0
  coord := fun n d => if n = d then 1 else 0
  F0 := fun _ _ => 0
  b0 := fun _ _ => 0
  S0 := fun _ _ => 0
  Mu := 1
  Lambda := 1
  mu_p0 := 0
  lam_p0 := 0

/-- Peeling the last node off the node loop of lines 161-181. -/
theorem F_Mat_gauss_succ (nDim m : ℕ) (coord grad Fp : ℕ → ℕ → ℝ) :
    F_Mat_gauss nDim (m + 1) coord grad Fp
      = F_nodeStep nDim coord grad (F_Mat_gauss nDim m coord grad Fp) m := by
  unfold F_Mat_gauss
  rw [List.range_succ, List.foldl_append, List.foldl_cons, List.foldl_nil]

/-- Closed form of the F_Mat buffer after the node loop of one Gauss
point: cell (3, 3) holds 1 when nDim = 2 and at least one node was
visited, the leading nDim x nDim block holds the deformation-gradient
sum, and every other cell keeps the previous buffer state. -/
theorem F_Mat_gauss_apply (nDim nNode : ℕ) (coord grad Fp : ℕ → ℕ → ℝ) (i j : ℕ) :
    F_Mat_gauss nDim nNode coord grad Fp i j =
      if nDim = 2 ∧ i = 3 ∧ j = 3 ∧ 0 < nNode then 1
      else if i < nDim ∧ j < nDim then ∑ n ∈ Finset.range nNode, coord n i * grad n j
      else Fp i j := by
  induction nNode with
  | zero =>
      simp [F_Mat_gauss, zeroBlock]
  | succ m ih =>
      rw [F_Mat_gauss_succ]
      unfold F_nodeStep
      by_cases h2 : nDim = 2
      · subst h2
        rw [if_pos rfl]
        show (if i = 3 ∧ j = 3 then (1 : ℝ)
          else if i < 2 ∧ j < 2 then
            F_Mat_gauss 2 m coord grad Fp i j + coord m i * grad m j
          else F_Mat_gauss 2 m coord grad Fp i j) = _
        by_cases h33 : i = 3 ∧ j = 3
        · rw [if_pos h33, if_pos ⟨rfl, h33.1, h33.2, Nat.succ_pos m⟩]
        · rw [if_neg h33]
          by_cases hin : i < 2 ∧ j < 2
          · have c1 : ¬(2 = 2 ∧ i = 3 ∧ j = 3 ∧ 0 < m) := by
              rintro ⟨-, hi, -, -⟩; omega
            have c2 : ¬(2 = 2 ∧ i = 3 ∧ j = 3 ∧ 0 < m + 1) := by
              rintro ⟨-, hi, -, -⟩; omega
            rw [if_pos hin, ih, if_neg c1, if_pos hin, if_neg c2, if_pos hin,
              Finset.sum_range_succ]
          · have c1 : ¬(2 = 2 ∧ i = 3 ∧ j = 3 ∧ 0 < m) := by
              rintro ⟨-, hi, hj, -⟩; exact h33 ⟨hi, hj⟩
            have c2 : ¬(2 = 2 ∧ i = 3 ∧ j = 3 ∧ 0 < m + 1) := by
              rintro ⟨-, hi, hj, -⟩; exact h33 ⟨hi, hj⟩
            rw [if_neg hin, ih, if_neg c1, if_neg hin, if_neg c2, if_neg hin]
      · rw [if_neg h2]
        show (if i < nDim ∧ j < nDim then
            F_Mat_gauss nDim m coord grad Fp i j + coord m i * grad m j
          else F_Mat_gauss nDim m coord grad Fp i j) = _
        have c2 : ¬(nDim = 2 ∧ i = 3 ∧ j = 3 ∧ 0 < m + 1) := by
          rintro ⟨h, -⟩; exact h2 h
        have c1 : ¬(nDim = 2 ∧ i = 3 ∧ j = 3 ∧ 0 < m) := by
          rintro ⟨h, -⟩; exact h2 h
        by_cases hin : i < nDim ∧ j < nDim
        · rw [if_pos hin, ih, if_neg c1, if_pos hin, if_neg c2, if_pos hin,
            Finset.sum_range_succ]
        · rw [if_neg hin, ih, if_neg c1, if_neg hin, if_neg c2, if_neg hin]

/-- Add_Kab leaves the geometric accumulator unchanged. -/
theorem add_Kab_Ks (K : ℕ → ℕ → ℝ) (a b : ℕ) (e : ElemStore) :
    (add_Kab K a b e).Ks = e.Ks := rfl

/-- Add_Kab_T leaves the geometric accumulator unchanged. -/
theorem add_Kab_T_Ks (K : ℕ → ℕ → ℝ) (a b : ℕ) (e : ElemStore) :
    (add_Kab_T K a b e).Ks = e.Ks := rfl

/-- Add_Ks_ab leaves the material accumulator unchanged. -/
theorem add_Ks_ab_Kc (s : ℝ) (a b : ℕ) (e : ElemStore) :
    (add_Ks_ab s a b e).Kc = e.Kc := rfl

/-- Pointwise description of Add_Ks_ab. -/
theorem add_Ks_ab_Ks (s : ℝ) (a b : ℕ) (e : ElemStore) (a2 b2 : ℕ) :
    (add_Ks_ab s a b e).Ks a2 b2
      = if a2 = a ∧ b2 = b then e.Ks a2 b2 + s else e.Ks a2 b2 := rfl

/-- Pointwise description of Add_Kab. -/
theorem add_Kab_Kc (K : ℕ → ℕ → ℝ) (a b : ℕ) (e : ElemStore) (a2 b2 i j : ℕ) :
    (add_Kab K a b e).Kc a2 b2 i j
      = if a2 = a ∧ b2 = b then e.Kc a2 b2 i j + K i j else e.Kc a2 b2 i j := rfl

/-- Pointwise description of Add_Kab_T. -/
theorem add_Kab_T_Kc (K : ℕ → ℕ → ℝ) (a b : ℕ) (e : ElemStore) (a2 b2 i j : ℕ) :
    (add_Kab_T K a b e).Kc a2 b2 i j
      = if a2 = a ∧ b2 = b then e.Kc a2 b2 i j + K j i else e.Kc a2 b2 i j := rfl

/-- Effect of one pair visit on the geometric accumulator: the pair
(iN, jN) receives its scalar once when iN = jN and twice otherwise
(both `Add_Ks_ab` calls of lines 286 and 290 target (iN, jN)); no
other pair is touched. -/
theorem pairStep_Ks (nDim bDim : ℕ) (w jx : ℝ) (grads D S : ℕ → ℕ → ℝ) (iN jN : ℕ)
    (e : ElemStore) (a b : ℕ) :
    (pairStep nDim bDim w jx grads D S iN jN e).Ks a b
      = e.Ks a b +
        (if a = iN ∧ b = jN then
          (if iN = jN then 1 else 2) * ksContrib nDim w jx grads S iN jN
        else 0) := by
  unfold pairStep
  by_cases h : iN = jN
  · rw [if_neg (not_not_intro h)]
    show (add_Ks_ab _ _ _ _).Ks a b = _
    rw [add_Ks_ab_Ks]
    show (if a = iN ∧ b = jN then (add_Kab _ iN jN e).Ks a b + _ else (add_Kab _ iN jN e).Ks a b) = _
    rw [add_Kab_Ks]
    by_cases hab : a = iN ∧ b = jN
    · rw [if_pos hab, if_pos hab, if_pos h]; ring
    · rw [if_neg hab, if_neg hab, add_zero]
  · rw [if_pos h]
    show (add_Ks_ab _ _ _ _).Ks a b = _
    rw [add_Ks_ab_Ks]
    by_cases hab : a = iN ∧ b = jN
    · rw [if_pos hab]
      show (add_Kab_T _ jN iN _).Ks a b + _ = _
      rw [add_Kab_T_Ks]
      show (add_Ks_ab _ _ _ _).Ks a b + _ = _
      rw [add_Ks_ab_Ks, if_pos hab]
      show (add_Kab _ iN jN e).Ks a b + _ + _ = _
      rw [add_Kab_Ks, if_pos hab, if_neg h]
      ring
    · rw [if_neg hab]
      show (add_Kab_T _ jN iN _).Ks a b = _
      rw [add_Kab_T_Ks]
      show (add_Ks_ab _ _ _ _).Ks a b = _
      rw [add_Ks_ab_Ks, if_neg hab]
      show (add_Kab _ iN jN e).Ks a b = _
      rw [add_Kab_Ks, if_neg hab, add_zero]

/-- Effect of one pair visit on the material accumulator: the pair
(iN, jN) receives the block once (line 285), and when iN and jN
differ the pair (jN, iN) receives its transpose (line 289); no other
pair is touched. -/
theorem pairStep_Kc (nDim bDim : ℕ) (w jx : ℝ) (grads D S : ℕ → ℕ → ℝ) (iN jN : ℕ)
    (e : ElemStore) (a b i j : ℕ) :
    (pairStep nDim bDim w jx grads D S iN jN e).Kc a b i j
      = e.Kc a b i j +
        (if a = iN ∧ b = jN then kcContrib nDim bDim w jx grads D iN jN i j else 0) +
        (if ¬iN = jN ∧ a = jN ∧ b = iN then kcContrib nDim bDim w jx grads D iN jN j i
         else 0) := by
  unfold pairStep
  by_cases h : iN = jN
  · rw [if_neg (not_not_intro h)]
    show (add_Ks_ab _ _ _ (add_Kab _ iN jN e)).Kc a b i j = _
    rw [show (add_Ks_ab (ksContrib nDim w jx grads S iN jN) iN jN
        (add_Kab (fun i j => kcContrib nDim bDim w jx grads D iN jN i j) iN jN e)).Kc
        = (add_Kab (fun i j => kcContrib nDim bDim w jx grads D iN jN i j) iN jN e).Kc
      from rfl]
    rw [add_Kab_Kc,
      if_neg (show ¬(¬iN = jN ∧ a = jN ∧ b = iN) from fun hh => hh.1 h)]
    by_cases hab : a = iN ∧ b = jN
    · rw [if_pos hab, if_pos hab, add_zero]
    · rw [if_neg hab, if_neg hab, add_zero, add_zero]
  · rw [if_pos h]
    show (add_Ks_ab _ _ _ (add_Kab_T _ jN iN (add_Ks_ab _ _ _ (add_Kab _ iN jN e)))).Kc
        a b i j = _
    rw [show ∀ e2 : ElemStore, (add_Ks_ab (ksContrib nDim w jx grads S iN jN) iN jN
        e2).Kc = e2.Kc from fun e2 => rfl]
    rw [add_Kab_T_Kc]
    rw [show ∀ e2 : ElemStore, (add_Ks_ab (ksContrib nDim w jx grads S iN jN) iN jN
        e2).Kc = e2.Kc from fun e2 => rfl]
    rw [add_Kab_Kc]
    by_cases hba : a = jN ∧ b = iN
    · have hab : ¬(a = iN ∧ b = jN) := by
        rintro ⟨h1, -⟩
        exact h (h1 ▸ hba.1)
      rw [if_pos hba, if_neg hab, if_neg hab, if_pos ⟨h, hba⟩, add_zero]
    · rw [if_neg hba,
        if_neg (show ¬(¬iN = jN ∧ a = jN ∧ b = iN) from fun hh => hba hh.2),
        add_zero]
      by_cases hab : a = iN ∧ b = jN
      · rw [if_pos hab, if_pos hab]
      · rw [if_neg hab, if_neg hab, add_zero]

/-- Folding a store update whose geometric effect is additive
accumulates the per-key contributions. -/
theorem foldl_Ks_additive (f : ElemStore → ℕ → ElemStore) (t : ℕ → ℕ → ℕ → ℝ)
    (hf : ∀ (e : ElemStore) (k a b : ℕ), (f e k).Ks a b = e.Ks a b + t k a b) :
    ∀ (L : List ℕ) (e : ElemStore) (a b : ℕ),
      (L.foldl f e).Ks a b = e.Ks a b + (L.map fun k => t k a b).sum := by
  intro L
  induction L with
  | nil => intro e a b; simp
  | cons x xs ih =>
      intro e a b
      rw [List.foldl_cons, ih, hf, List.map_cons, List.sum_cons]
      ring

/-- Folding a store update whose material effect is additive
accumulates the per-key contributions. -/
theorem foldl_Kc_additive (f : ElemStore → ℕ → ElemStore) (t : ℕ → ℕ → ℕ → ℕ → ℕ → ℝ)
    (hf : ∀ (e : ElemStore) (k a b i j : ℕ),
      (f e k).Kc a b i j = e.Kc a b i j + t k a b i j) :
    ∀ (L : List ℕ) (e : ElemStore) (a b i j : ℕ),
      (L.foldl f e).Kc a b i j = e.Kc a b i j + (L.map fun k => t k a b i j).sum := by
  intro L
  induction L with
  | nil => intro e a b i j; simp
  | cons x xs ih =>
      intro e a b i j
      rw [List.foldl_cons, ih, hf, List.map_cons, List.sum_cons]
      ring

/-- Summing over a contiguous index list a function that vanishes away
from one key picks out the value at the key when the key is in range. -/
theorem sum_map_point_key_range' (t : ℕ → ℝ) (key : ℕ)
    (h : ∀ x, x ≠ key → t x = 0) :
    ∀ (len start : ℕ),
      ((List.range' start len).map t).sum
        = if start ≤ key ∧ key < start + len then t key else 0 := by
  intro len
  induction len with
  | zero =>
      intro start
      rw [show List.range' start 0 = [] from rfl, List.map_nil, List.sum_nil,
        if_neg (by omega)]
  | succ n ih =>
      intro start
      rw [List.range'_succ start n 1, List.map_cons, List.sum_cons, ih (start + 1)]
      by_cases hk : key = start
      · subst hk
        rw [if_neg (by omega), if_pos (by omega), add_zero]
      · rw [h start (fun hh => hk hh.symm), zero_add]
        by_cases h2 : start + 1 ≤ key ∧ key < start + 1 + n
        · rw [if_pos h2, if_pos (by omega)]
        · rw [if_neg h2, if_neg (by omega)]

/-- Version of the point lemma for List.range. -/
theorem sum_map_point_key_range (t : ℕ → ℝ) (key : ℕ)
    (h : ∀ x, x ≠ key → t x = 0) (n : ℕ) :
    ((List.range n).map t).sum = if key < n then t key else 0 := by
  rw [List.range_eq_range', sum_map_point_key_range' t key h n 0]
  by_cases hk : key < n
  · rw [if_pos (by omega), if_pos hk]
  · rw [if_neg (by omega), if_neg hk]

/-- A mapped sum of pointwise sums splits. -/
theorem list_sum_map_add (l : List ℕ) (f g : ℕ → ℝ) :
    (l.map fun x => f x + g x).sum = (l.map f).sum + (l.map g).sum := by
  induction l with
  | nil => simp
  | cons x xs ih => simp [ih]; ring

/-- Closed form of the geometric accumulation over the symmetric pair
loop of lines 203-295 (for one Gauss point): the pair (a, b) with
a ≤ b receives its scalar, doubled when a < b by the second Add_Ks_ab
call of line 290; pairs with b < a receive nothing. -/
theorem pairLoop_Ks (nDim bDim : ℕ) (w jx : ℝ) (grads D S : ℕ → ℕ → ℝ) (nNode : ℕ)
    (e : ElemStore) (a b : ℕ) :
    ((List.range nNode).foldl (fun e2 iN =>
        (List.range' iN (nNode - iN)).foldl
          (fun e3 jN => pairStep nDim bDim w jx grads D S iN jN e3) e2) e).Ks a b
      = e.Ks a b +
        (if a < nNode ∧ b < nNode ∧ a ≤ b then
          (if a = b then 1 else 2) * ksContrib nDim w jx grads S a b
        else 0) := by
  have hinner : ∀ (iN : ℕ) (e2 : ElemStore) (a2 b2 : ℕ),
      ((List.range' iN (nNode - iN)).foldl
          (fun e3 jN => pairStep nDim bDim w jx grads D S iN jN e3) e2).Ks a2 b2
        = e2.Ks a2 b2 +
          (if iN ≤ b2 ∧ b2 < iN + (nNode - iN) then
            (if a2 = iN ∧ b2 = b2 then
              (if iN = b2 then 1 else 2) * ksContrib nDim w jx grads S iN b2
            else 0)
          else 0) := by
    intro iN e2 a2 b2
    rw [foldl_Ks_additive (fun e3 jN => pairStep nDim bDim w jx grads D S iN jN e3)
        (fun jN a3 b3 => if a3 = iN ∧ b3 = jN then
          (if iN = jN then 1 else 2) * ksContrib nDim w jx grads S iN jN else 0)
        (fun e3 k a3 b3 => pairStep_Ks nDim bDim w jx grads D S iN k e3 a3 b3)
        (List.range' iN (nNode - iN)) e2 a2 b2]
    congr 1
    exact sum_map_point_key_range' _ b2
      (fun x hx => if_neg (fun hh => hx hh.2.symm)) (nNode - iN) iN
  rw [foldl_Ks_additive (fun e2 iN =>
        (List.range' iN (nNode - iN)).foldl
          (fun e3 jN => pairStep nDim bDim w jx grads D S iN jN e3) e2)
      (fun iN a2 b2 => if iN ≤ b2 ∧ b2 < iN + (nNode - iN) then
        (if a2 = iN ∧ b2 = b2 then
          (if iN = b2 then 1 else 2) * ksContrib nDim w jx grads S iN b2
        else 0)
      else 0)
      (fun e2 k a2 b2 => hinner k e2 a2 b2) (List.range nNode) e a b]
  congr 1
  have hvan : ∀ x, x ≠ a →
      (if x ≤ b ∧ b < x + (nNode - x) then
        (if a = x ∧ b = b then
          (if x = b then 1 else 2) * ksContrib nDim w jx grads S x b
        else 0)
      else 0) = 0 := by
    intro x hx
    by_cases hc : x ≤ b ∧ b < x + (nNode - x)
    · rw [if_pos hc, if_neg (fun hh => hx hh.1.symm)]
    · rw [if_neg hc]
  rw [sum_map_point_key_range _ a hvan nNode]
  split_ifs <;> first | rfl | (exfalso; omega)

/-- Closed form of the material accumulation over the symmetric pair
loop of lines 203-295 (for one Gauss point): the pair (a, b) with
a ≤ b receives the direct block of line 285 and the pair (a, b) with
b < a receives the transposed block of line 289. -/
theorem pairLoop_Kc (nDim bDim : ℕ) (w jx : ℝ) (grads D S : ℕ → ℕ → ℝ) (nNode : ℕ)
    (e : ElemStore) (a b i j : ℕ) :
    ((List.range nNode).foldl (fun e2 iN =>
        (List.range' iN (nNode - iN)).foldl
          (fun e3 jN => pairStep nDim bDim w jx grads D S iN jN e3) e2) e).Kc a b i j
      = e.Kc a b i j +
        ((if a < nNode ∧ b < nNode ∧ a ≤ b then kcContrib nDim bDim w jx grads D a b i j
          else 0) +
         (if a < nNode ∧ b < nNode ∧ b < a then kcContrib nDim bDim w jx grads D b a j i
          else 0)) := by
  have hinner : ∀ (iN : ℕ) (e2 : ElemStore) (a2 b2 i2 j2 : ℕ),
      ((List.range' iN (nNode - iN)).foldl
          (fun e3 jN => pairStep nDim bDim w jx grads D S iN jN e3) e2).Kc a2 b2 i2 j2
        = e2.Kc a2 b2 i2 j2 +
          ((if iN ≤ b2 ∧ b2 < iN + (nNode - iN) then
              (if a2 = iN ∧ b2 = b2 then kcContrib nDim bDim w jx grads D iN b2 i2 j2
               else 0)
            else 0) +
           (if iN ≤ a2 ∧ a2 < iN + (nNode - iN) then
              (if ¬iN = a2 ∧ a2 = a2 ∧ b2 = iN then kcContrib nDim bDim w jx grads D iN a2 j2 i2
               else 0)
            else 0)) := by
    intro iN e2 a2 b2 i2 j2
    rw [foldl_Kc_additive (fun e3 jN => pairStep nDim bDim w jx grads D S iN jN e3)
        (fun jN a3 b3 i3 j3 =>
          (if a3 = iN ∧ b3 = jN then kcContrib nDim bDim w jx grads D iN jN i3 j3
           else 0) +
          (if ¬iN = jN ∧ a3 = jN ∧ b3 = iN then kcContrib nDim bDim w jx grads D iN jN j3 i3
           else 0))
        (fun e3 k a3 b3 i3 j3 => by
          rw [pairStep_Kc nDim bDim w jx grads D S iN k e3 a3 b3 i3 j3]; ring)
        (List.range' iN (nNode - iN)) e2 a2 b2 i2 j2]
    congr 1
    rw [list_sum_map_add]
    congr 1
    · exact sum_map_point_key_range' _ b2
        (fun x hx => if_neg (fun hh => hx hh.2.symm)) (nNode - iN) iN
    · exact sum_map_point_key_range' _ a2
        (fun x hx => if_neg (fun hh => hx hh.2.1.symm)) (nNode - iN) iN
  rw [foldl_Kc_additive (fun e2 iN =>
        (List.range' iN (nNode - iN)).foldl
          (fun e3 jN => pairStep nDim bDim w jx grads D S iN jN e3) e2)
      (fun iN a2 b2 i2 j2 =>
        (if iN ≤ b2 ∧ b2 < iN + (nNode - iN) then
            (if a2 = iN ∧ b2 = b2 then kcContrib nDim bDim w jx grads D iN b2 i2 j2
             else 0)
          else 0) +
        (if iN ≤ a2 ∧ a2 < iN + (nNode - iN) then
            (if ¬iN = a2 ∧ a2 = a2 ∧ b2 = iN then kcContrib nDim bDim w jx grads D iN a2 j2 i2
             else 0)
          else 0))
      (fun e2 k a2 b2 i2 j2 => hinner k e2 a2 b2 i2 j2)
      (List.range nNode) e a b i j]
  congr 1
  rw [list_sum_map_add]
  congr 1
  · have hvan : ∀ x, x ≠ a →
        (if x ≤ b ∧ b < x + (nNode - x) then
          (if a = x ∧ b = b then kcContrib nDim bDim w jx grads D x b i j else 0)
        else 0) = 0 := by
      intro x hx
      by_cases hc : x ≤ b ∧ b < x + (nNode - x)
      · rw [if_pos hc, if_neg (fun hh => hx hh.1.symm)]
      · rw [if_neg hc]
    rw [sum_map_point_key_range _ a hvan nNode]
    split_ifs <;> first | rfl | (exfalso; omega)
  · have hvan : ∀ x, x ≠ b →
        (if x ≤ a ∧ a < x + (nNode - x) then
          (if ¬x = a ∧ a = a ∧ b = x then kcContrib nDim bDim w jx grads D x a j i else 0)
        else 0) = 0 := by
      intro x hx
      by_cases hc : x ≤ a ∧ a < x + (nNode - x)
      · rw [if_pos hc, if_neg (fun hh => hx hh.2.2.symm)]
      · rw [if_neg hc]
    rw [sum_map_point_key_range _ b hvan nNode]
    split_ifs <;> first | rfl | (exfalso; omega)

/-- The geometric effect of the assembly at one Gauss point: it does
not depend on the deformation state s at all, because the
Stress_Tensor buffer is never recomputed inside
Compute_Tangent_Matrix — the scalar is always formed from the entry
stress I.S0. -/
theorem gaussAssemble_Ks (log : ℝ → ℝ) (I : TMIn) (s : TMState) (g : ℕ)
    (e : ElemStore) (a b : ℕ) :
    (gaussAssemble log I s g e).Ks a b = e.Ks a b + gaussKsTerm I g a b := by
  unfold gaussAssemble gaussKsTerm
  exact pairLoop_Ks I.nDim (bDimOf I.nDim) (I.W g) (I.JX g) (fun n d => I.gradX n g d)
    (Compute_Constitutive_Matrix log I.Mu I.Lambda (det3 s.F) I.mu_p0 I.lam_p0) I.S0
    I.nNode e a b

/-- The material effect of the assembly at one Gauss point, with the
constitutive matrix taken at the determinant of the F buffer of the state
(line 226 recomputes D from the member J_F for each node). -/
theorem gaussAssemble_Kc (log : ℝ → ℝ) (I : TMIn) (s : TMState) (g : ℕ)
    (e : ElemStore) (a b i j : ℕ) :
    (gaussAssemble log I s g e).Kc a b i j
      = e.Kc a b i j +
        ((if a < I.nNode ∧ b < I.nNode ∧ a ≤ b then
            kcContrib I.nDim (bDimOf I.nDim) (I.W g) (I.JX g) (fun n d => I.gradX n g d)
              (Compute_Constitutive_Matrix log I.Mu I.Lambda (det3 s.F) I.mu_p0 I.lam_p0)
              a b i j
          else 0) +
         (if a < I.nNode ∧ b < I.nNode ∧ b < a then
            kcContrib I.nDim (bDimOf I.nDim) (I.W g) (I.JX g) (fun n d => I.gradX n g d)
              (Compute_Constitutive_Matrix log I.Mu I.Lambda (det3 s.F) I.mu_p0 I.lam_p0)
              b a j i
          else 0)) := by
  unfold gaussAssemble
  exact pairLoop_Kc I.nDim (bDimOf I.nDim) (I.W g) (I.JX g) (fun n d => I.gradX n g d)
    (Compute_Constitutive_Matrix log I.Mu I.Lambda (det3 s.F) I.mu_p0 I.lam_p0) I.S0
    I.nNode e a b i j

/-- The state component of the Gauss loop ignores the store. -/
theorem tangent_fold_fst (log : ℝ → ℝ) (I : TMIn) :
    ∀ (n : ℕ) (p : TMState × ElemStore),
      ((List.range n).foldl (tangentGaussStep log I) p).1
        = (List.range n).foldl (gaussStateStep I) p.1 := by
  intro n
  induction n with
  | zero => intro p; rfl
  | succ m ih =>
      intro p
      rw [List.range_succ]
      simp only [List.foldl_append, List.foldl_cons, List.foldl_nil]
      show gaussStateStep I (((List.range m).foldl (tangentGaussStep log I) p).1) m = _
      rw [ih p]

/-- Unfolding one Gauss-point step of the deformation state. -/
theorem stateAt_succ (I : TMIn) (g : ℕ) :
    stateAt I (g + 1) = gaussStateStep I (stateAt I g) g := by
  unfold stateAt
  rw [List.range_succ, List.foldl_append, List.foldl_cons, List.foldl_nil]

/-- The geometric accumulator produced by Compute_Tangent_Matrix: the
sum over the Gauss points of the per-point term, which is built from
the entry stress I.S0 only. -/
theorem Compute_Tangent_Matrix_Ks (log : ℝ → ℝ) (I : TMIn) (a b : ℕ) :
    (Compute_Tangent_Matrix log I).2.Ks a b
      = ∑ g ∈ Finset.range I.nGauss, gaussKsTerm I g a b := by
  unfold Compute_Tangent_Matrix
  have main : ∀ (n : ℕ) (p : TMState × ElemStore),
      ((List.range n).foldl (tangentGaussStep log I) p).2.Ks a b
        = p.2.Ks a b + ∑ g ∈ Finset.range n, gaussKsTerm I g a b := by
    intro n
    induction n with
    | zero => intro p; simp
    | succ m ih =>
        intro p
        rw [List.range_succ, List.foldl_append, List.foldl_cons, List.foldl_nil]
        show (gaussAssemble log I _ m
          (((List.range m).foldl (tangentGaussStep log I) p).2)).Ks a b = _
        rw [gaussAssemble_Ks, ih p, Finset.sum_range_succ]
        ring
  rw [main I.nGauss _]
  show (0 : ℝ) + _ = _
  rw [zero_add]

/-- The material accumulator produced by Compute_Tangent_Matrix: the
sum over the Gauss points of the per-point term, with the constitutive
matrix refreshed from the J_F of each Gauss point. -/
theorem Compute_Tangent_Matrix_Kc (log : ℝ → ℝ) (I : TMIn) (a b i j : ℕ) :
    (Compute_Tangent_Matrix log I).2.Kc a b i j
      = ∑ g ∈ Finset.range I.nGauss, gaussKcTerm log I g a b i j := by
  unfold Compute_Tangent_Matrix
  have main : ∀ (n : ℕ),
      ((List.range n).foldl (tangentGaussStep log I)
        ((⟨I.F0, I.b0⟩ : TMState), emptyStore)).2.Kc a b i j
        = ∑ g ∈ Finset.range n, gaussKcTerm log I g a b i j := by
    intro n
    induction n with
    | zero => simp [emptyStore]
    | succ m ih =>
        rw [List.range_succ, List.foldl_append, List.foldl_cons, List.foldl_nil]
        show (gaussAssemble log I
          (gaussStateStep I
            (((List.range m).foldl (tangentGaussStep log I)
              ((⟨I.F0, I.b0⟩ : TMState), emptyStore)).1) m) m
          (((List.range m).foldl (tangentGaussStep log I)
            ((⟨I.F0, I.b0⟩ : TMState), emptyStore)).2)).Kc a b i j = _
        rw [gaussAssemble_Kc, tangent_fold_fst log I m]
        have hst : gaussStateStep I
            ((List.range m).foldl (gaussStateStep I)
              (((⟨I.F0, I.b0⟩ : TMState), emptyStore)).1) m
            = stateAt I (m + 1) := (stateAt_succ I m).symm
        rw [hst, ih, Finset.sum_range_succ]
        show _ + _ = _ + gaussKcTerm log I m a b i j
        rw [show gaussKcTerm log I m a b i j
          = (if a < I.nNode ∧ b < I.nNode ∧ a ≤ b then
              kcContrib I.nDim (bDimOf I.nDim) (I.W m) (I.JX m) (fun n d => I.gradX n m d)
                (Compute_Constitutive_Matrix log I.Mu I.Lambda (det3 (stateAt I (m + 1)).F)
                  I.mu_p0 I.lam_p0) a b i j
            else 0) +
            (if a < I.nNode ∧ b < I.nNode ∧ b < a then
              kcContrib I.nDim (bDimOf I.nDim) (I.W m) (I.JX m) (fun n d => I.gradX n m d)
                (Compute_Constitutive_Matrix log I.Mu I.Lambda (det3 (stateAt I (m + 1)).F)
                  I.mu_p0 I.lam_p0) b a j i
            else 0) from rfl]
  exact main I.nGauss

/-- Claim C3: for every call to Compute_Constitutive_Matrix with
J_F ≠ 0, the constitutive matrix D is filled as the isotropic block
with Mu_p = (Mu − Lambda·ln J_F)/J_F and Lambda_p = Lambda/J_F: the
diagonal normal-stress entries equal Lambda_p + 2·Mu_p, the
off-diagonal normal-stress entries equal Lambda_p, the shear diagonal
entries equal Mu_p, and all shear cross-terms are 0. -/
theorem C3_constitutive_fill (log : ℝ → ℝ) (Mu Lambda J_F mu_p0 lam_p0 : ℝ)
    (hJ : J_F ≠ 0) (i j : ℕ) (hi : i < 6) (hj : j < 6) :
    Compute_Constitutive_Matrix log Mu Lambda J_F mu_p0 lam_p0 i j
      = if i < 3 ∧ j < 3 then
          (if i = j then Lambda / J_F + 2 * ((Mu - Lambda * log J_F) / J_F)
           else Lambda / J_F)
        else if i = j then (Mu - Lambda * log J_F) / J_F
        else 0 := by
  unfold Compute_Constitutive_Matrix
  rw [if_pos hJ, if_pos hJ]
  interval_cases i <;> interval_cases j <;> norm_num

/-- Witness for C3 at J_F = 1, Mu = Lambda = 1: the (0,0) entry of D
is Lambda_p + 2·Mu_p = 1 + 2 = 3. -/
theorem C3_witness :
    (1 : ℝ) ≠ 0 ∧ Compute_Constitutive_Matrix Real.log 1 1 1 5 7 0 0 = 3 := by
  refine ⟨one_ne_zero, ?_⟩
  have h := C3_constitutive_fill Real.log 1 1 1 5 7 one_ne_zero 0 0 (by norm_num)
    (by norm_num)
  rw [h]
  norm_num [Real.log_one]

/-- Counterexample to claim C5: two models of the C library log that
agree at every nonzero argument (they differ only in the value
assigned to log(0)) produce different Stress Tensors when J_F = 0, so
the computation ln(J_F) does affect the produced Stress Tensor: line
434 evaluates log(J_F) and multiplies it into the diagonal entries
with no guard. -/
theorem C5_counterexample :
    Compute_Stress_Tensor (fun x => if x = 0 then 37 else Real.log x) 1 1 0
        (fun _ _ => 0) 1 1 0 0 = 36 ∧
    Compute_Stress_Tensor Real.log 1 1 0 (fun _ _ => 0) 1 1 0 0 = -1 ∧
    (36 : ℝ) ≠ -1 := by
  refine ⟨?_, ?_, by norm_num⟩ <;>
    norm_num [Compute_Stress_Tensor, Real.log_zero]

/-- Claim C5 as amended: when J_F = 0 both coefficient updates are
skipped.  For Compute_Constitutive_Matrix no computation depending on
J_F (or on Mu, Lambda, or the log model) affects D: the matrix is
built from the indeterminate local values alone.  But
Compute_Stress_Tensor still evaluates ln(J_F) and multiplies it into
the diagonal entries, so the produced stress is
mu_J0·(b − I) + lam_J0·log(0)·I, which depends on log(0). -/
theorem C5_amended (log log2 : ℝ → ℝ) (Mu Lambda Mu2 Lambda2 mu_p0 lam_p0 : ℝ)
    (b : ℕ → ℕ → ℝ) (mu_J0 lam_J0 : ℝ) (i j : ℕ) :
    Compute_Constitutive_Matrix log Mu Lambda 0 mu_p0 lam_p0 i j
      = Compute_Constitutive_Matrix log2 Mu2 Lambda2 0 mu_p0 lam_p0 i j ∧
    Compute_Stress_Tensor log Mu Lambda 0 b mu_J0 lam_J0 i j
      = (if i < 3 ∧ j < 3 then
          mu_J0 * (b i j - (if i = j then 1 else 0)) +
            lam_J0 * log 0 * (if i = j then 1 else 0)
        else 0) := by
  constructor
  · unfold Compute_Constitutive_Matrix
    rw [if_neg (not_not_intro rfl), if_neg (not_not_intro rfl),
      if_neg (not_not_intro rfl), if_neg (not_not_intro rfl)]
  · unfold Compute_Stress_Tensor
    rw [if_neg (not_not_intro rfl), if_neg (not_not_intro rfl)]

/-- Claim C4 (code bug): in the 2D case the plane-strain closure of
line 178 is the literal write `F_Mat[3][3] = 1.0`: it sets the
out-of-bounds cell (3, 3) of the 3x3 buffer to 1 and leaves the
out-of-plane diagonal entry F_Mat[2][2] at whatever stale value the
buffer held, so the cofactor expansion of J_F uses the stale third row
and column instead of the plane-strain embedding claimed. -/
theorem C4_code_bug (nNode : ℕ) (coord grad Fp : ℕ → ℕ → ℝ) :
    F_Mat_gauss 2 (nNode + 1) coord grad Fp 2 2 = Fp 2 2 ∧
    F_Mat_gauss 2 (nNode + 1) coord grad Fp 3 3 = 1 := by
  constructor
  · rw [F_Mat_gauss_apply]
    norm_num
  · rw [F_Mat_gauss_apply]
    norm_num

/-- Claim C10 (code bug): with nDim = 2 and one node, the write set of
the F_Mat buffer contains the index pair (3, 3) — the write
`F_Mat[3][3] = 1.0` of line 178 — which is out of bounds for the 3x3
buffer allocated in the constructor (both indices must be at most 2);
in the flat memory model the out-of-bounds cell (3, 3) indeed receives
the value 1. -/
theorem C10_code_bug :
    F_Mat_write_index 2 1 (3, 3) ∧ ¬((3 : ℕ) < 3 ∧ (3 : ℕ) < 3) ∧
    F_Mat_gauss 2 1 (fun _ _ => 0) (fun _ _ => 0) (fun _ _ => 0) 3 3 = 1 := by
  refine ⟨by decide, by decide, ?_⟩
  rw [F_Mat_gauss_apply]
  norm_num

/-- Claim C7: after its volume-accumulation loop,
Compute_MeanDilatation_Term writes, for every node pair (a, b) with no
symmetry shortcut, the block
Kk_ab[i][j] = AvgKappa · Vol_current · AvgGrad[a][i] · AvgGrad[b][j],
where AvgKappa = Kappa·Vol_current/Vol_reference and AvgGrad is the
accumulated gradient normalized by Vol_current; the write overwrites
the pressure block of the element: the result does not depend on the prior
block Kk0. -/
theorem C7_mean_dilatation (I : MDIn) (Kk0 : ℕ → ℕ → ℕ → ℕ → ℝ) (a b i j : ℕ)
    (hVc : md_Vcur I ≠ 0) (hVr : md_Vref I ≠ 0)
    (ha : a < I.nNode) (hb : b < I.nNode) (hi : i < I.nDim) (hj : j < I.nDim) :
    Compute_MeanDilatation_Term I Kk0 a b i j
      = (I.Kappa * md_Vcur I / md_Vref I) * md_Vcur I *
        (md_Gacc I a i / md_Vcur I) * (md_Gacc I b j / md_Vcur I) := by
  unfold Compute_MeanDilatation_Term md_kappa md_Gfin
  rw [if_pos ⟨ha, hb, hi, hj⟩, if_pos ⟨hVc, hVr⟩, if_pos ⟨ha, hi, hVc, hVr⟩,
    if_pos ⟨hb, hj, hVc, hVr⟩]

/-- Witness for C7 at the unit mean-dilatation input, with a prior
pressure block holding 99 everywhere (the 99 is overwritten). -/
theorem C7_witness :
    md_Vcur mdUnit ≠ 0 ∧ md_Vref mdUnit ≠ 0 ∧
    Compute_MeanDilatation_Term mdUnit (fun _ _ _ _ => 99) 0 0 0 0
      = (mdUnit.Kappa * md_Vcur mdUnit / md_Vref mdUnit) * md_Vcur mdUnit *
        (md_Gacc mdUnit 0 0 / md_Vcur mdUnit) * (md_Gacc mdUnit 0 0 / md_Vcur mdUnit) := by
  have hVc : md_Vcur mdUnit ≠ 0 := by
    rw [show md_Vcur mdUnit = 1 from by simp [md_Vcur, mdUnit]]
    norm_num
  have hVr : md_Vref mdUnit ≠ 0 := by
    rw [show md_Vref mdUnit = 1 from by simp [md_Vref, mdUnit]]
    norm_num
  exact ⟨hVc, hVr, C7_mean_dilatation mdUnit (fun _ _ _ _ => 99) 0 0 0 0 hVc hVr
    Nat.one_pos Nat.one_pos (by norm_num [mdUnit]) (by norm_num [mdUnit])⟩

/-- Counterexample to claim C8: on the degenerate input (zero
quadrature weight, so both accumulated volumes are 0) the averaged
gradient buffer does not retain its pre-call value 7: the call zeroes
the buffer and accumulates into it before the volume guard is ever
tested, leaving 0. -/
theorem C8_counterexample :
    md_Gfin mdDegenerate 0 0 = 0 ∧ mdDegenerate.G0 0 0 = 7 ∧ (0 : ℝ) ≠ 7 := by
  refine ⟨?_, rfl, by norm_num⟩
  simp [md_Gfin, md_Gacc, md_Vcur, mdDegenerate]

/-- Claim C8 as amended: if either accumulated volume is zero, the
normalization and the bulk-modulus update are skipped: the local
Avg_kappa keeps its indeterminate entry value, and the gradient buffer
holds the zeroed-then-accumulated unnormalized sums (it is modified by
the call, not retained). -/
theorem C8_amended (I : MDIn) (h : md_Vcur I = 0 ∨ md_Vref I = 0) :
    md_kappa I = I.kappa0 ∧ md_Gfin I = md_Gacc I := by
  have hc : ¬(md_Vcur I ≠ 0 ∧ md_Vref I ≠ 0) := by
    rcases h with h | h
    · rintro ⟨h1, -⟩; exact h1 h
    · rintro ⟨-, h2⟩; exact h2 h
  constructor
  · unfold md_kappa
    rw [if_neg hc]
  · funext n d
    unfold md_Gfin
    rw [if_neg (by rintro ⟨-, -, h1, h2⟩; exact hc ⟨h1, h2⟩)]

/-- Witness for C8 on the degenerate input. -/
theorem C8_witness :
    (md_Vcur mdDegenerate = 0 ∨ md_Vref mdDegenerate = 0) ∧
    md_kappa mdDegenerate = mdDegenerate.kappa0 ∧
    md_Gfin mdDegenerate = md_Gacc mdDegenerate := by
  have h : md_Vcur mdDegenerate = 0 ∨ md_Vref mdDegenerate = 0 :=
    Or.inl (by simp [md_Vcur, mdDegenerate])
  exact ⟨h, C8_amended mdDegenerate h⟩

/-- Before the first Gauss point the buffers hold their entry state. -/
theorem stateAt_zero (I : TMIn) : stateAt I 0 = ⟨I.F0, I.b0⟩ := rfl

/-- The F buffer at Gauss point g is the node-loop update applied to
the state left by the previous Gauss point. -/
theorem FAt_step (I : TMIn) (g : ℕ) :
    FAt I g
      = F_Mat_gauss I.nDim I.nNode I.coord (fun n d => I.gradX n g d) (stateAt I g).F := by
  show (stateAt I (g + 1)).F = _
  rw [stateAt_succ]
  rfl

/-- The b buffer at Gauss point g is computed from the F buffer at g
on top of the b state left by the previous Gauss point. -/
theorem bAt_step (I : TMIn) (g : ℕ) :
    bAt I g
      = b_Mat_gauss I.nDim
          (F_Mat_gauss I.nDim I.nNode I.coord (fun n d => I.gradX n g d) (stateAt I g).F)
          (stateAt I g).b := by
  show (stateAt I (g + 1)).b = _
  rw [stateAt_succ]
  rfl

/-- For in-block indices the F buffer at any Gauss point is the fresh
deformation-gradient sum of that Gauss point, independent of every
previous buffer state (the out-of-bounds closure write only ever
targets cell (3, 3), which is never in the block). -/
theorem FAt_fresh (I : TMIn) (g i j : ℕ)
    (hi : i < I.nDim) (hj : j < I.nDim) :
    FAt I g i j = ∑ n ∈ Finset.range I.nNode, I.coord n i * I.gradX n g j := by
  rw [FAt_step, F_Mat_gauss_apply,
    if_neg (show ¬(I.nDim = 2 ∧ i = 3 ∧ j = 3 ∧ 0 < I.nNode) from by
      rintro ⟨h2, h3, -, -⟩; omega),
    if_pos ⟨hi, hj⟩]

/-- In the 3D case the b buffer at any Gauss point is the fresh
product sum of the F entries at that Gauss point, independent of every
previous buffer state. -/
theorem bAt_fresh3 (I : TMIn) (h3 : I.nDim = 3) (g i j : ℕ)
    (hi : i < 3) (hj : j < 3) :
    bAt I g i j = ∑ k ∈ Finset.range 3, FAt I g i k * FAt I g j k := by
  rw [FAt_step, bAt_step]
  show b_Mat_gauss _ _ _ i j = _
  unfold b_Mat_gauss zeroBlock
  rw [if_pos ⟨hi, hj⟩, h3, if_pos ⟨hi, hj⟩, zero_add]

/-- Counterexample to claim C9: a 2D element whose current coordinates
equal its reference coordinates (the in-plane sum
x[n][i]·gradN[n][j] is exactly the 2x2 identity at the Gauss point,
stated entrywise below), yet Compute_Tangent_Matrix computes J_F = 0,
not 1: the plane-strain closure never sets F_Mat[2][2] = 1 (line 178
writes cell (3,3) instead), so with the zeroed entry buffer the third
row and column of F_Mat stay 0 and the cofactor expansion vanishes. -/
theorem C9_counterexample :
    (∑ n ∈ Finset.range tmId2D.nNode, tmId2D.coord n 0 * tmId2D.gradX n 0 0) = 1 ∧
    (∑ n ∈ Finset.range tmId2D.nNode, tmId2D.coord n 0 * tmId2D.gradX n 0 1) = 0 ∧
    (∑ n ∈ Finset.range tmId2D.nNode, tmId2D.coord n 1 * tmId2D.gradX n 0 0) = 0 ∧
    (∑ n ∈ Finset.range tmId2D.nNode, tmId2D.coord n 1 * tmId2D.gradX n 0 1) = 1 ∧
    JAt tmId2D 0 = 0 ∧ (0 : ℝ) ≠ 1 := by
  refine ⟨?_, ?_, ?_, ?_, ?_, by norm_num⟩
  · norm_num [tmId2D, Finset.sum_range_succ]
  · norm_num [tmId2D, Finset.sum_range_succ]
  · norm_num [tmId2D, Finset.sum_range_succ]
  · norm_num [tmId2D, Finset.sum_range_succ]
  · unfold JAt det3
    rw [FAt_step, stateAt_zero]
    simp only [F_Mat_gauss_apply]
    norm_num [tmId2D, Finset.sum_range_succ]

/-- Claim C9 as amended (restricted to the 3D case, where the
identity-deformation property does hold): whenever
Σ_n x[n][i]·gradN[n][j] = δ_ij at every Gauss point, the computed F is
the identity, J_F = 1, b is the identity, and Compute_Stress_Tensor
then produces the zero Stress Tensor. -/
theorem C9_amended (I : TMIn) (h3 : I.nDim = 3)
    (hid : ∀ g i j, i < 3 → j < 3 →
      (∑ n ∈ Finset.range I.nNode, I.coord n i * I.gradX n g j)
        = if i = j then 1 else 0)
    (mu_J0 lam_J0 : ℝ) (g i j : ℕ) (hi : i < 3) (hj : j < 3) :
    FAt I g i j = (if i = j then 1 else 0) ∧
    JAt I g = 1 ∧
    bAt I g i j = (if i = j then 1 else 0) ∧
    Compute_Stress_Tensor Real.log I.Mu I.Lambda (JAt I g) (bAt I g) mu_J0 lam_J0 i j
      = 0 := by
  have hF : ∀ i2 j2, i2 < 3 → j2 < 3 → FAt I g i2 j2 = if i2 = j2 then (1 : ℝ) else 0 := by
    intro i2 j2 hi2 hj2
    rw [FAt_fresh I g i2 j2 (by omega) (by omega), hid g i2 j2 hi2 hj2]
  have hJ : JAt I g = 1 := by
    unfold JAt det3
    rw [hF 0 0 (by norm_num) (by norm_num), hF 0 1 (by norm_num) (by norm_num),
      hF 0 2 (by norm_num) (by norm_num), hF 1 0 (by norm_num) (by norm_num),
      hF 1 1 (by norm_num) (by norm_num), hF 1 2 (by norm_num) (by norm_num),
      hF 2 0 (by norm_num) (by norm_num), hF 2 1 (by norm_num) (by norm_num),
      hF 2 2 (by norm_num) (by norm_num)]
    norm_num
  have hb : ∀ i2 j2, i2 < 3 → j2 < 3 → bAt I g i2 j2 = if i2 = j2 then (1 : ℝ) else 0 := by
    intro i2 j2 hi2 hj2
    rw [bAt_fresh3 I h3 g i2 j2 hi2 hj2]
    rw [Finset.sum_congr rfl (fun k hk => by
      rw [hF i2 k hi2 (Finset.mem_range.mp hk), hF j2 k hj2 (Finset.mem_range.mp hk)])]
    rw [Finset.sum_range_succ, Finset.sum_range_succ, Finset.sum_range_one]
    interval_cases i2 <;> interval_cases j2 <;> norm_num
  refine ⟨hF i j hi hj, hJ, hb i j hi hj, ?_⟩
  unfold Compute_Stress_Tensor
  rw [hJ, hb i j hi hj,
    if_pos (show (1 : ℝ) ≠ 0 from one_ne_zero),
    if_pos (show (1 : ℝ) ≠ 0 from one_ne_zero),
    if_pos ⟨hi, hj⟩, Real.log_one]
  ring

/-- Witness for C9 on the concrete 3D identity element. -/
theorem C9_witness :
    tmId3D.nDim = 3 ∧
    (FAt tmId3D 0 0 0 = (if (0 : ℕ) = 0 then (1 : ℝ) else 0) ∧
     JAt tmId3D 0 = 1 ∧
     bAt tmId3D 0 0 0 = (if (0 : ℕ) = 0 then (1 : ℝ) else 0) ∧
     Compute_Stress_Tensor Real.log tmId3D.Mu tmId3D.Lambda (JAt tmId3D 0)
       (bAt tmId3D 0) 5 7 0 0 = 0) := by
  refine ⟨rfl, C9_amended tmId3D rfl ?_ 5 7 0 0 0 (by norm_num) (by norm_num)⟩
  intro g i j hi hj
  interval_cases i <;> interval_cases j <;> norm_num [tmId3D, Finset.sum_range_succ]

/-- Counterexample to claim C6: on a 2D element (all gradients and
coordinates zero, two Gauss points with identical data) the entry
F_Mat[2][0] at the first Gauss point equals the value 1 it held before
the call, and b_Mat[2][2] holds 1 at the first Gauss point but 2 at
the second: the out-of-block entries of F carry over and the
out-of-block entries of b accumulate across Gauss points, so F and b
are not recomputed fresh. -/
theorem C6_counterexample :
    FAt tmStale 0 2 0 = 1 ∧ bAt tmStale 0 2 2 = 1 ∧ bAt tmStale 1 2 2 = 2 ∧
    (1 : ℝ) ≠ 2 := by
  have hF0 : ∀ x y : ℕ, ¬(x < 2 ∧ y < 2) → ¬(x = 3 ∧ y = 3) →
      FAt tmStale 0 x y = tmStale.F0 x y := by
    intro x y h1 h2
    rw [FAt_step, stateAt_zero, F_Mat_gauss_apply,
      if_neg (show ¬(tmStale.nDim = 2 ∧ x = 3 ∧ y = 3 ∧ 0 < tmStale.nNode) from by
        rintro ⟨-, h3, h4, -⟩; exact h2 ⟨h3, h4⟩),
      if_neg (show ¬(x < tmStale.nDim ∧ y < tmStale.nDim) from h1)]
  have hFa : FAt tmStale 0 2 0 = 1 := by
    rw [hF0 2 0 (by omega) (by omega)]
    norm_num [tmStale]
  have hFb : FAt tmStale 0 2 1 = 0 := by
    rw [hF0 2 1 (by omega) (by omega)]
    norm_num [tmStale]
  have hFc : FAt tmStale 0 2 2 = 0 := by
    rw [hF0 2 2 (by omega) (by omega)]
    norm_num [tmStale]
  have hb0 : bAt tmStale 0 2 2 = 1 := by
    rw [bAt_step, stateAt_zero]
    show b_Mat_gauss _ _ _ 2 2 = 1
    unfold b_Mat_gauss zeroBlock
    rw [if_pos (by omega), if_neg (show ¬(2 < tmStale.nDim ∧ 2 < tmStale.nDim) from by
      rintro ⟨h1, -⟩; revert h1; norm_num [tmStale])]
    rw [Finset.sum_range_succ, Finset.sum_range_succ, Finset.sum_range_one]
    have e1 : F_Mat_gauss tmStale.nDim tmStale.nNode tmStale.coord
        (fun n d => tmStale.gradX n 0 d) tmStale.F0 = FAt tmStale 0 := by
      rw [FAt_step, stateAt_zero]
    rw [e1, hFa, hFb, hFc]
    norm_num [tmStale]
  have e2 : F_Mat_gauss tmStale.nDim tmStale.nNode tmStale.coord
      (fun n d => tmStale.gradX n 1 d) (stateAt tmStale 1).F = FAt tmStale 1 := by
    rw [FAt_step]
  have hF1 : ∀ x y : ℕ, ¬(x < 2 ∧ y < 2) → ¬(x = 3 ∧ y = 3) →
      FAt tmStale 1 x y = FAt tmStale 0 x y := by
    intro x y h1 h2
    rw [FAt_step, F_Mat_gauss_apply,
      if_neg (show ¬(tmStale.nDim = 2 ∧ x = 3 ∧ y = 3 ∧ 0 < tmStale.nNode) from by
        rintro ⟨-, h3, h4, -⟩; exact h2 ⟨h3, h4⟩),
      if_neg (show ¬(x < tmStale.nDim ∧ y < tmStale.nDim) from h1)]
    rfl
  have hb1 : bAt tmStale 1 2 2 = 2 := by
    rw [bAt_step]
    show b_Mat_gauss _ _ _ 2 2 = 2
    unfold b_Mat_gauss zeroBlock
    rw [if_pos (by omega), if_neg (show ¬(2 < tmStale.nDim ∧ 2 < tmStale.nDim) from by
      rintro ⟨h1, -⟩; revert h1; norm_num [tmStale])]
    rw [Finset.sum_range_succ, Finset.sum_range_succ, Finset.sum_range_one]
    rw [e2, hF1 2 0 (by omega) (by omega), hF1 2 1 (by omega) (by omega),
      hF1 2 2 (by omega) (by omega), hFa, hFb, hFc]
    show (stateAt tmStale 1).b 2 2 + _ = 2
    rw [show (stateAt tmStale 1).b = bAt tmStale 0 from rfl, hb0]
    norm_num
  exact ⟨hFa, hb0, hb1, by norm_num⟩

/-- Claim C6 as amended: in the 3D case the full 3x3 tensors F and b
are recomputed fresh at every Gauss point from the current Gauss
gradients and coordinates of the current Gauss point only; in the 2D case only the
leading 2x2 block of F is recomputed fresh. -/
theorem C6_amended :
    (∀ (I : TMIn), I.nDim = 3 → ∀ g i j, i < 3 → j < 3 →
      FAt I g i j = (∑ n ∈ Finset.range I.nNode, I.coord n i * I.gradX n g j) ∧
      bAt I g i j = ∑ k ∈ Finset.range 3,
        (∑ n ∈ Finset.range I.nNode, I.coord n i * I.gradX n g k) *
        (∑ n ∈ Finset.range I.nNode, I.coord n j * I.gradX n g k)) ∧
    (∀ (I : TMIn), I.nDim = 2 → ∀ g i j, i < 2 → j < 2 →
      FAt I g i j = ∑ n ∈ Finset.range I.nNode, I.coord n i * I.gradX n g j) := by
  constructor
  · intro I h3 g i j hi hj
    refine ⟨FAt_fresh I g i j (by omega) (by omega), ?_⟩
    rw [bAt_fresh3 I h3 g i j hi hj]
    refine Finset.sum_congr rfl fun k hk => ?_
    have hk3 := Finset.mem_range.mp hk
    rw [FAt_fresh I g i k (by omega) (by omega), FAt_fresh I g j k (by omega) (by omega)]
  · intro I h2 g i j hi hj
    exact FAt_fresh I g i j (by omega) (by omega)

/-- Witness for C6 on concrete 3D and 2D elements. -/
theorem C6_witness :
    tmFresh3D.nDim = 3 ∧
    (FAt tmFresh3D 0 0 0
        = (∑ n ∈ Finset.range tmFresh3D.nNode, tmFresh3D.coord n 0 * tmFresh3D.gradX n 0 0) ∧
     bAt tmFresh3D 0 0 0 = ∑ k ∈ Finset.range 3,
        (∑ n ∈ Finset.range tmFresh3D.nNode, tmFresh3D.coord n 0 * tmFresh3D.gradX n 0 k) *
        (∑ n ∈ Finset.range tmFresh3D.nNode, tmFresh3D.coord n 0 * tmFresh3D.gradX n 0 k)) ∧
    tmId2D.nDim = 2 ∧
    FAt tmId2D 0 1 1 = ∑ n ∈ Finset.range tmId2D.nNode, tmId2D.coord n 1 * tmId2D.gradX n 0 1 := by
  exact ⟨rfl, C6_amended.1 tmFresh3D rfl 0 0 0 (by norm_num) (by norm_num), rfl,
    C6_amended.2 tmId2D rfl 0 1 1 (by norm_num) (by norm_num)⟩

/-- Counterexample to claim C1: on a 3D identity-deformation element
whose Stress_Tensor buffer enters Compute_Tangent_Matrix holding the
identity matrix, the assembled geometric scalar for the pair (0, 0) is
1, even though the stress of the current deformation state (J_F = 1,
b = identity) is the zero tensor — which would make every geometric
scalar 0.  Compute_Tangent_Matrix never invokes Compute_Stress_Tensor:
the geometric term is formed from the entry stress, not from the
stress of the current deformation state. -/
theorem C1_counterexample :
    (Compute_Tangent_Matrix Real.log tmIdStress).2.Ks 0 0 = 1 ∧
    Compute_Stress_Tensor Real.log tmIdStress.Mu tmIdStress.Lambda (JAt tmIdStress 0)
      (bAt tmIdStress 0) 0 0 = (fun _ _ => (0 : ℝ)) ∧
    (1 : ℝ) ≠ 0 := by
  have hF : ∀ i2 j2 : ℕ, i2 < 3 → j2 < 3 →
      FAt tmIdStress 0 i2 j2 = if i2 = j2 then (1 : ℝ) else 0 := by
    intro i2 j2 h1 h2
    rw [FAt_fresh tmIdStress 0 i2 j2 h1 h2]
    interval_cases i2 <;> interval_cases j2 <;>
      norm_num [tmIdStress, Finset.sum_range_succ]
  have hJ : JAt tmIdStress 0 = 1 := by
    unfold JAt det3
    rw [hF 0 0 (by norm_num) (by norm_num), hF 0 1 (by norm_num) (by norm_num),
      hF 0 2 (by norm_num) (by norm_num), hF 1 0 (by norm_num) (by norm_num),
      hF 1 1 (by norm_num) (by norm_num), hF 1 2 (by norm_num) (by norm_num),
      hF 2 0 (by norm_num) (by norm_num), hF 2 1 (by norm_num) (by norm_num),
      hF 2 2 (by norm_num) (by norm_num)]
    norm_num
  have hb : ∀ i2 j2 : ℕ, i2 < 3 → j2 < 3 →
      bAt tmIdStress 0 i2 j2 = if i2 = j2 then (1 : ℝ) else 0 := by
    intro i2 j2 h1 h2
    rw [bAt_fresh3 tmIdStress rfl 0 i2 j2 h1 h2,
      Finset.sum_congr rfl (fun k hk => by
        rw [hF i2 k h1 (Finset.mem_range.mp hk), hF j2 k h2 (Finset.mem_range.mp hk)]),
      Finset.sum_range_succ, Finset.sum_range_succ, Finset.sum_range_one]
    interval_cases i2 <;> interval_cases j2 <;> norm_num
  refine ⟨?_, ?_, by norm_num⟩
  · rw [Compute_Tangent_Matrix_Ks, show tmIdStress.nGauss = 1 from rfl,
      Finset.sum_range_one]
    unfold gaussKsTerm ksContrib
    norm_num [tmIdStress, Finset.sum_range_succ]
  · funext i j
    simp only [Compute_Stress_Tensor]
    rw [hJ]
    by_cases hij : i < 3 ∧ j < 3
    · rw [if_pos (show (1 : ℝ) ≠ 0 from one_ne_zero),
        if_pos (show (1 : ℝ) ≠ 0 from one_ne_zero),
        if_pos hij, hb i j hij.1 hij.2, Real.log_one]
      ring
    · rw [if_neg hij]

/-- Claim C1 as amended: at every Gauss point the Constitutive Model
is invoked to refresh D from the current J_F — the material
contribution gaussKcTerm is built from Compute_Constitutive_Matrix at
JAt I g — but the Stress Tensor is never recomputed inside
Compute_Tangent_Matrix: the geometric contribution gaussKsTerm is
built from the entry stress I.S0 at every Gauss point. -/
theorem C1_amended (log : ℝ → ℝ) (I : TMIn) (a b i j : ℕ) :
    (Compute_Tangent_Matrix log I).2.Ks a b
      = (∑ g ∈ Finset.range I.nGauss, gaussKsTerm I g a b) ∧
    (Compute_Tangent_Matrix log I).2.Kc a b i j
      = ∑ g ∈ Finset.range I.nGauss, gaussKcTerm log I g a b i j :=
  ⟨Compute_Tangent_Matrix_Ks log I a b, Compute_Tangent_Matrix_Kc log I a b i j⟩

/-- Claim C2 (code bug): on a non-degenerate 3D element — the eight
nodes of the unit cube with the trilinear shape-function gradients at
the center Gauss point, current coordinates equal to the reference
ones, so the computed J_F is exactly 1 — the stiffness matrix
assembled by Compute_Tangent_Matrix is not equal to its own
transpose.  The material blocks are mirrored correctly
(Kc(0,1)[0][0] = Kc(1,0)[0][0]), but the symmetric branch of line 290
executes `Add_Ks_ab(Ks_Aux_ab, iNode, jNode)` a second time instead
of `Add_Ks_ab(Ks_Aux_ab, jNode, iNode)`: the pair (0, 1) accumulates
the geometric scalar twice (total 1/8) while the pair (1, 0)
accumulates nothing, so totalK(0,1)[0][0] differs from
totalK(1,0)[0][0], contradicting the symmetry the claim states and
the comment of line 287 intends. -/
theorem C2_code_bug :
    JAt tmCube 0 = 1 ∧
    (Compute_Tangent_Matrix Real.log tmCube).2.Ks 0 1 = 1 / 8 ∧
    (Compute_Tangent_Matrix Real.log tmCube).2.Ks 1 0 = 0 ∧
    (Compute_Tangent_Matrix Real.log tmCube).2.Kc 0 1 0 0
      = (Compute_Tangent_Matrix Real.log tmCube).2.Kc 1 0 0 0 ∧
    totalK (Compute_Tangent_Matrix Real.log tmCube).2 0 1 0 0
      ≠ totalK (Compute_Tangent_Matrix Real.log tmCube).2 1 0 0 0 := by
  have hF : ∀ i2 j2 : ℕ, i2 < 3 → j2 < 3 →
      FAt tmCube 0 i2 j2 = if i2 = j2 then (1 : ℝ) else 0 := by
    intro i2 j2 h1 h2
    rw [FAt_fresh tmCube 0 i2 j2 h1 h2]
    interval_cases i2 <;> interval_cases j2 <;>
      norm_num [tmCube, Finset.sum_range_succ]
  have hJ : JAt tmCube 0 = 1 := by
    unfold JAt det3
    rw [hF 0 0 (by norm_num) (by norm_num), hF 0 1 (by norm_num) (by norm_num),
      hF 0 2 (by norm_num) (by norm_num), hF 1 0 (by norm_num) (by norm_num),
      hF 1 1 (by norm_num) (by norm_num), hF 1 2 (by norm_num) (by norm_num),
      hF 2 0 (by norm_num) (by norm_num), hF 2 1 (by norm_num) (by norm_num),
      hF 2 2 (by norm_num) (by norm_num)]
    norm_num
  have hKs01 : (Compute_Tangent_Matrix Real.log tmCube).2.Ks 0 1 = 1 / 8 := by
    rw [Compute_Tangent_Matrix_Ks, show tmCube.nGauss = 1 from rfl,
      Finset.sum_range_one]
    unfold gaussKsTerm ksContrib
    norm_num [tmCube, Finset.sum_range_succ]
  have hKs10 : (Compute_Tangent_Matrix Real.log tmCube).2.Ks 1 0 = 0 := by
    rw [Compute_Tangent_Matrix_Ks, show tmCube.nGauss = 1 from rfl,
      Finset.sum_range_one]
    unfold gaussKsTerm
    norm_num
  have hKcEq : (Compute_Tangent_Matrix Real.log tmCube).2.Kc 0 1 0 0
      = (Compute_Tangent_Matrix Real.log tmCube).2.Kc 1 0 0 0 := by
    rw [Compute_Tangent_Matrix_Kc, Compute_Tangent_Matrix_Kc]
    refine Finset.sum_congr rfl fun g hg => ?_
    unfold gaussKcTerm
    norm_num [tmCube]
  refine ⟨hJ, hKs01, hKs10, hKcEq, ?_⟩
  unfold totalK
  rw [if_pos rfl, if_pos rfl, hKs01, hKs10, hKcEq]
  intro h
  have h2 := add_left_cancel h
  norm_num at h2

end
